import Mathlib

/-!
# Verification of the claude-extension-boilerplate tool dispatch and file tools

Shallow embedding of the MCP extension server's dispatcher
(`server/index.js`), the file processor tool
(`server/tools/file_processor_tool.js`), the example tool and the
system-info tool, together with proofs settling the frozen claims about
the natural-language specification.

Conventions of the embedding:
* JS strings are Lean `String`s; `undefined`/missing values are `Option`.
* Asynchronous functions that may `throw` are modelled as `Except`-valued
  pure functions; the thrown value carries the `message` (and Node `code`)
  of the JS `Error` object.
* The filesystem, the `os` module and clocks are external state, passed in
  explicitly as records of pure functions / values.
* IEEE-754-dependent string formatting (`formatSize`, `toFixed`) is
  abstracted as a function parameter of the ambient context: its output
  never decides any claim, and floating point is outside the embedding.
* String primitives (`split`, `startsWith`, `trim`, join) are implemented
  over `List Char` so that concrete instances evaluate inside the kernel;
  they agree with the JS primitives on the inputs that occur here.
-/

/-! ## String primitives -/

/-- `s.split(sep)` for a single-character separator, JS semantics:
`"".split(c) = [""]`, separators at the ends produce empty pieces. -/
def splitChar (c : Char) (s : String) : List String :=
  (s.data.foldr
    (fun ch acc =>
      match acc with
      | [] => [[ch]]
      | piece :: rest => if ch = c then [] :: piece :: rest else (ch :: piece) :: rest)
    [[]]).map String.mk

/-- `s.startsWith(pre)`. -/
def strStartsWith (s pre : String) : Bool := pre.data.isPrefixOf s.data

/-- `s.trim()`: strip leading and trailing whitespace. -/
def strTrim (s : String) : String :=
  ⟨((s.data.dropWhile Char.isWhitespace).reverse.dropWhile Char.isWhitespace).reverse⟩

/-- `arr.join(sep)` / `String.intercalate`. -/
def joinWith (sep : String) : List String → String
  | [] => ""
  | [x] => x
  | x :: xs => x ++ sep ++ joinWith sep xs

example : splitChar ',' "a,b" = ["a", "b"] := by decide
example : splitChar ',' "" = [""] := by decide
example : splitChar '/' "/a/b" = ["", "a", "b"] := by decide
example : strStartsWith "/allowed-evil" "/allowed" = true := by decide
example : joinWith "/" ["a", "b"] = "a/b" := by decide

/-! ## Node `path` model (POSIX flavour)

`path.resolve` makes a path absolute against the working directory and
collapses `.` , `..` and empty segments.  The working directory is carried
as its (already collapsed) list of segments. -/

/-- Segments of a path string, split on the separator. -/
def splitSegs (s : String) : List String := splitChar '/' s

/-- Collapse `.`/`..`/empty segments the way `path.resolve` normalizes an
absolute path (a `..` at the root is dropped). -/
def collapse (segs : List String) : List String :=
  segs.foldl
    (fun acc seg =>
      if seg = "" || seg = "." then acc
      else if seg = ".." then acc.dropLast
      else acc ++ [seg]) []

/-- `path.resolve(p)`: resolve `p` against the working directory `cwd`
(given as collapsed segments of an absolute path) and render the
normalized absolute path. -/
def resolvePath (cwd : List String) (p : String) : String :=
  let segs :=
    if strStartsWith p "/" then collapse (splitSegs p)
    else collapse (cwd ++ splitSegs p)
  "/" ++ joinWith "/" segs

/-! ## The Path Guard: `isPathAllowed`

Source (`server/tools/file_processor_tool.js` lines 27-35, and the
identical copy in the example tool):

```js
function isPathAllowed(targetPath) {
  const allowedPaths = process.env.ALLOWED_PATHS ? process.env.ALLOWED_PATHS.split(',') : [];
  const resolvedPath = path.resolve(targetPath);
  return allowedPaths.some(allowedPath => {
    const resolvedAllowedPath = path.resolve(allowedPath.trim());
    return resolvedPath.startsWith(resolvedAllowedPath);
  });
}
```

In JS the empty string is falsy, so `ALLOWED_PATHS=""` behaves like an
absent variable. -/

/-- The Path Guard of both file-oriented tools, embedded verbatim:
a naive `startsWith` comparison of resolved paths. -/
def isPathAllowed (cwd : List String) (env : Option String) (targetPath : String) : Bool :=
  let allowedPaths :=
    match env with
    | some s => if s = "" then [] else splitChar ',' s
    | none => []
  let resolvedPath := resolvePath cwd targetPath
  allowedPaths.any fun allowedPath =>
    strStartsWith resolvedPath (resolvePath cwd (strTrim allowedPath))

example : resolvePath [] "/allowed" = "/allowed" := by decide
example : resolvePath [] "/e/../escaped" = "/escaped" := by decide
example : isPathAllowed [] (some "/allowed") "/allowed-sibling" = true := by decide
example : isPathAllowed [] (some "/allowed") "/allowed/x" = true := by decide
example : isPathAllowed [] (some "/allowed") "/other" = false := by decide
example : isPathAllowed [] none "/anything" = false := by decide

/-! ## Errors, filesystem and common helpers -/

/-- A thrown JS `Error`: its `message` and optional Node `code`
(e.g. `"ENOENT"`). -/
structure JsError where
  message : String
  code : Option String
deriving DecidableEq, Repr

/-- Kind of a filesystem object, as reported by `fs.Stats` /
`fs.Dirent` type predicates. -/
inductive FKind where
  | file
  | dir
  | symlink
  | other
deriving DecidableEq, Repr

/-- The fields of `fs.Stats` that the tools read.  Times are carried as
their already-rendered ISO-8601 strings (`Date.toISOString`). -/
structure Stats where
  kind : FKind
  size : Nat
  mode : Nat
  mtime : String
  birthtime : String
  atime : String
  blocks : Nat
  blksize : Nat
deriving DecidableEq, Repr

/-- A directory entry from `fs.readdir(p, {withFileTypes: true})`. -/
structure Dirent where
  name : String
  kind : FKind
deriving DecidableEq, Repr

/-- The filesystem as seen through the `fs/promises` calls the tools make.
`stat` and `readdir` may fail (a thrown error); the read calls are only
reached after a successful `stat`, so they are total here. -/
structure FS where
  stat : String → Except JsError Stats
  readdir : String → Except JsError (List Dirent)
  readUtf8 : String → String
  readBytes : String → List Nat

/-- `path.join(a, b)` for an absolute, normalized `a` and a plain name `b`. -/
def pathJoin (a b : String) : String :=
  if a = "/" then a ++ b else a ++ "/" ++ b

/-- One hex digit, lowercase (as JS `toString(16)`). -/
def hexChar (n : Nat) : Char :=
  if n < 10 then Char.ofNat (48 + n) else Char.ofNat (87 + n)

/-- `b.toString(16).padStart(2, '0')` for a byte. -/
def hexByte (b : Nat) : String :=
  ⟨[hexChar (b / 16 % 16), hexChar (b % 16)]⟩

/-- One character of the standard base64 alphabet. -/
def b64Char (n : Nat) : Char :=
  if n < 26 then Char.ofNat (65 + n)
  else if n < 52 then Char.ofNat (97 + (n - 26))
  else if n < 62 then Char.ofNat (48 + (n - 52))
  else if n = 62 then '+'
  else '/'

/-- `Buffer.toString('base64')`: standard base64 with `=` padding. -/
def base64Encode : List Nat → String
  | [] => ""
  | [a] => ⟨[b64Char (a / 4), b64Char (a % 4 * 16), '=', '=']⟩
  | [a, b] => ⟨[b64Char (a / 4), b64Char (a % 4 * 16 + b / 16), b64Char (b % 16 * 4), '=']⟩
  | a :: b :: c :: rest =>
    (⟨[b64Char (a / 4), b64Char (a % 4 * 16 + b / 16),
       b64Char (b % 16 * 4 + c / 64), b64Char (c % 64)]⟩ : String) ++ base64Encode rest

example : base64Encode [77, 97, 110] = "TWFu" := by decide
example : base64Encode [77, 97] = "TWE=" := by decide
example : hexByte 10 = "0a" := by decide

/-- `path.extname(base)` on a plain file name (no separators): the part
from the last `.` on, unless that dot is the leading character. -/
def extname (s : String) : String :=
  let cs := s.data
  match cs.reverse.findIdx? (· = '.') with
  | none => ""
  | some i =>
    let pos := cs.length - 1 - i
    if pos = 0 then "" else ⟨cs.drop pos⟩

example : extname "a.txt" = ".txt" := by decide
example : extname ".bashrc" = "" := by decide
example : extname "noext" = "" := by decide

/-- The `dir` and `base` parts of `path.parse(p)`. -/
def pathDirBase (p : String) : String × String :=
  let cs := p.data
  match cs.reverse.findIdx? (· = '/') with
  | none => ("", p)
  | some i =>
    let pos := cs.length - 1 - i
    ((if pos = 0 then "/" else ⟨cs.take pos⟩), ⟨cs.drop (pos + 1)⟩)

/-- The `name` part of `path.parse`: the base without its extension. -/
def baseNameNoExt (base : String) : String :=
  ⟨base.data.take (base.data.length - (extname base).data.length)⟩

example : pathDirBase "/a/b.txt" = ("/a", "b.txt") := by decide
example : pathDirBase "/x" = ("/", "x") := by decide
example : baseNameNoExt "b.txt" = "b" := by decide

/-- `n.toString(8)`. -/
def octalString (n : Nat) : String := ⟨Nat.toDigits 8 n⟩

/-- Truthiness of an optional JS string (`undefined` and `""` are falsy). -/
def truthyStr : Option String → Bool
  | none => false
  | some s => s ≠ ""

/-- `a || b` on optional JS strings. -/
def jsOrStr (a b : Option String) : Option String :=
  if truthyStr a then a else b

/-- A zod validation issue: the offending field and the issue message. -/
structure ZodIssue where
  path : String
  message : String
deriving DecidableEq, Repr

/-- Rendering of `ZodError.message` (in JS a JSON dump of the issues);
modelled as a compact listing that names every offending field. -/
def zodMessage (issues : List ZodIssue) : String :=
  joinWith "; " (issues.map fun i => i.path ++ ": " ++ i.message)

/-- The issues of one field's parse result. -/
def issueOf {α : Type} : Except ZodIssue α → List ZodIssue
  | .error i => [i]
  | .ok _ => []

/-- Everything a JS `throw` can carry here: a plain `Error` or a
`ZodError` from `inputSchema.parse`. -/
inductive Thrown where
  | jsError (e : JsError)
  | zodError (issues : List ZodIssue)
deriving DecidableEq, Repr

/-- `error.message` of a thrown value. -/
def Thrown.message : Thrown → String
  | .jsError e => e.message
  | .zodError issues => zodMessage issues

/-- The access-denied error thrown by every file-touching operation. -/
def accessDeniedErr (p : String) : JsError :=
  ⟨"Access denied: " ++ p ++ " is not in an allowed directory", none⟩

/-! ## File processor tool (`server/tools/file_processor_tool.js`) -/

/-- The enum of the `operation` argument. -/
inductive FpOperation where
  | read
  | list
  | search
  | stats
deriving DecidableEq, Repr

/-- String shown for each operation in the failure envelope. -/
def FpOperation.nameStr : FpOperation → String
  | .read => "read"
  | .list => "list"
  | .search => "search"
  | .stats => "stats"

/-- The enum of the `encoding` argument. -/
inductive FpEncoding where
  | utf8
  | binary
  | base64
deriving DecidableEq, Repr

/-- Ambient context of one tool call: the working directory, the
`ALLOWED_PATHS` variable, the filesystem, the `formatSize` float
formatter, the compiled case-insensitive regex (`pattern`, `name`) test,
and the current `toISOString` timestamp. -/
structure FpCtx where
  cwd : List String
  env : Option String
  fs : FS
  formatSize : Nat → String
  regexTest : String → String → Bool
  now : String

/-- Result object of the `read` operation (lines 82-91). -/
structure ReadResult where
  path : String
  size : Nat
  size_formatted : String
  encoding : FpEncoding
  content : String
  lines : Option Nat
  modified : String
deriving DecidableEq, Repr

/-- `readFile(filePath, maxSize, encoding)` (lines 56-92). -/
def readFile (ctx : FpCtx) (filePath : String) (maxSize : Nat) (encoding : FpEncoding) :
    Except JsError ReadResult :=
  if isPathAllowed ctx.cwd ctx.env filePath = false then
    .error (accessDeniedErr filePath)
  else
    match ctx.fs.stat filePath with
    | .error e => .error e
    | .ok stats =>
      if stats.kind ≠ FKind.file then
        .error ⟨filePath ++ " is not a file", none⟩
      else if stats.size > maxSize then
        .error ⟨"File size (" ++ ctx.formatSize stats.size ++
          ") exceeds maximum allowed size (" ++ ctx.formatSize maxSize ++ ")", none⟩
      else
        let content :=
          match encoding with
          | .binary => joinWith " " ((ctx.fs.readBytes filePath).map hexByte)
          | .base64 => base64Encode (ctx.fs.readBytes filePath)
          | .utf8 => ctx.fs.readUtf8 filePath
        .ok ⟨filePath, stats.size, ctx.formatSize stats.size, encoding, content,
          (if encoding = FpEncoding.utf8 then some (splitChar '\n' content).length else none),
          stats.mtime⟩

/-- One entry produced by `listRecursive` (lines 110-151).  The JS objects
have different key sets per case; absent keys are `none`. -/
structure ListEntry where
  name : String
  relPath : String
  type : String
  depth : Nat
  size : Option Nat := none
  size_formatted : Option String := none
  modified : Option String := none
  extension : Option String := none
  error : Option String := none
deriving DecidableEq, Repr

/-- The relative path recorded for an entry: the segments walked from the
root directory of the listing (this is what `path.relative(dirPath,
path.join(dirPath, segs...))` yields for a normalized `dirPath`). -/
def relString (rel : List String) (name : String) : String :=
  joinWith "/" (rel ++ [name])

mutual

/-- `listRecursive(currentPath, depth)` (lines 102-155): throws
`'Maximum directory depth exceeded'` past depth 10, otherwise reads the
directory and processes its entries in order.  Total for every `FS`,
including cyclic/unboundedly deep ones: the recursion is bounded by the
depth counter. -/
def listRecursive (fs : FS) (fmt : Nat → String) (rec : Bool) (currentPath : String)
    (rel : List String) (depth : Nat) : Except JsError (List ListEntry) :=
  if _h : depth > 10 then
    .error ⟨"Maximum directory depth exceeded", none⟩
  else
    match fs.readdir currentPath with
    | .error e => .error e
    | .ok entries => listEntries fs fmt rec currentPath rel depth entries
termination_by (12 - depth, 0)

/-- The body of `listRecursive`'s `for` loop over the directory entries. -/
def listEntries (fs : FS) (fmt : Nat → String) (rec : Bool) (currentPath : String)
    (rel : List String) (depth : Nat) (es : List Dirent) : Except JsError (List ListEntry) :=
  match es with
  | [] => .ok []
  | d :: ds =>
    match d.kind with
    | .dir =>
      let info : ListEntry :=
        { name := d.name, relPath := relString rel d.name,
          type := "directory", depth := depth }
      if rec then
        match listRecursive fs fmt rec (pathJoin currentPath d.name) (rel ++ [d.name])
            (depth + 1) with
        | .error e => .error e
        | .ok sub =>
          match listEntries fs fmt rec currentPath rel depth ds with
          | .error e => .error e
          | .ok rest => .ok (info :: (sub ++ rest))
      else
        match listEntries fs fmt rec currentPath rel depth ds with
        | .error e => .error e
        | .ok rest => .ok (info :: rest)
    | .file =>
      let entry : ListEntry :=
        match fs.stat (pathJoin currentPath d.name) with
        | .ok st =>
          { name := d.name, relPath := relString rel d.name, type := "file",
            depth := depth, size := some st.size, size_formatted := some (fmt st.size),
            modified := some st.mtime, extension := some (extname d.name) }
        | .error _ =>
          { name := d.name, relPath := relString rel d.name, type := "file",
            depth := depth, error := some "Unable to read file stats" }
      match listEntries fs fmt rec currentPath rel depth ds with
      | .error e => .error e
      | .ok rest => .ok (entry :: rest)
    | _ => listEntries fs fmt rec currentPath rel depth ds
termination_by (11 - depth, es.length + 1)

end

/-- Summary block of the `list` result (lines 164-171).  The JS filter
`e.size` is truthy, so files of size 0 (or with no size) do not count
towards `total_size`. -/
structure ListSummary where
  total : Nat
  files : Nat
  directories : Nat
  total_size : Nat
  total_size_formatted : String
deriving DecidableEq, Repr

/-- Result object of the `list` operation (lines 173-182). -/
structure ListResult where
  path : String
  recursive : Bool
  entries : List ListEntry
  summary : ListSummary
deriving DecidableEq, Repr

/-- `listDirectory(dirPath, recursive)` (lines 97-183). -/
def listDirectory (ctx : FpCtx) (dirPath : String) (rec : Bool) :
    Except JsError ListResult :=
  if isPathAllowed ctx.cwd ctx.env dirPath = false then
    .error (accessDeniedErr dirPath)
  else
    match ctx.fs.stat dirPath with
    | .error e => .error e
    | .ok stats =>
      if stats.kind ≠ FKind.dir then
        .error ⟨dirPath ++ " is not a directory", none⟩
      else
        match listRecursive ctx.fs ctx.formatSize rec dirPath [] 0 with
        | .error e => .error e
        | .ok entries =>
          let files := (entries.filter fun e => e.type = "file").length
          let dirs := (entries.filter fun e => e.type = "directory").length
          let totalSize :=
            ((entries.filter fun e => e.type = "file" && e.size ≠ none && e.size ≠ some 0).map
              (fun e => (e.size).getD 0)).sum
          .ok ⟨dirPath, rec, entries,
            ⟨entries.length, files, dirs, totalSize, ctx.formatSize totalSize⟩⟩

/-- One match produced by `searchRecursive` (lines 209-228).  Note the JS
`type` field is `'directory'` for directories and `'file'` for everything
else (`entry.isDirectory() ? 'directory' : 'file'`). -/
structure SearchMatch where
  name : String
  relPath : String
  full_path : String
  type : String
  size : Option Nat := none
  size_formatted : Option String := none
  modified : Option String := none
  error : Option String := none
  depth : Nat
deriving DecidableEq, Repr

mutual

/-- `searchRecursive(currentPath, depth)` (lines 196-238): returns
silently past depth 10, skips unreadable directories, collects matching
entries, and only descends into subdirectories while `depth < 10`.
Never throws. -/
def searchRecursive (fs : FS) (fmt : Nat → String) (matcher : String → Bool) (rec : Bool)
    (currentPath : String) (rel : List String) (depth : Nat) : List SearchMatch :=
  if _h : depth > 10 then []
  else
    match fs.readdir currentPath with
    | .error _ => []
    | .ok entries => searchEntries fs fmt matcher rec currentPath rel depth entries
termination_by (12 - depth, 0)

/-- The body of `searchRecursive`'s `for` loop over the entries. -/
def searchEntries (fs : FS) (fmt : Nat → String) (matcher : String → Bool) (rec : Bool)
    (currentPath : String) (rel : List String) (depth : Nat) (es : List Dirent) :
    List SearchMatch :=
  match es with
  | [] => []
  | d :: ds =>
    let fullPath := pathJoin currentPath d.name
    let hits : List SearchMatch :=
      if matcher d.name then
        match fs.stat fullPath with
        | .ok st =>
          [{ name := d.name, relPath := relString rel d.name, full_path := fullPath,
             type := if d.kind = FKind.dir then "directory" else "file",
             size := if d.kind = FKind.file then some st.size else none,
             size_formatted := if d.kind = FKind.file then some (fmt st.size) else none,
             modified := some st.mtime, depth := depth }]
        | .error _ =>
          [{ name := d.name, relPath := relString rel d.name, full_path := fullPath,
             type := if d.kind = FKind.dir then "directory" else "file",
             error := some "Unable to read stats", depth := depth }]
      else []
    let sub : List SearchMatch :=
      if d.kind = FKind.dir ∧ rec = true ∧ depth < 10 then
        searchRecursive fs fmt matcher rec fullPath (rel ++ [d.name]) (depth + 1)
      else []
    hits ++ sub ++ searchEntries fs fmt matcher rec currentPath rel depth ds
termination_by (11 - depth, es.length + 1)

end

/-- Result object of the `search` operation (lines 242-249). -/
structure SearchResult where
  path : String
  pattern : String
  recursive : Bool
  matchList : List SearchMatch
  count : Nat
deriving DecidableEq, Repr

/-- `searchFiles(searchPath, pattern, recursive)` (lines 188-250).  The
compiled case-insensitive regex `new RegExp(pattern, 'i')` is the ambient
`ctx.regexTest pattern`. -/
def searchFiles (ctx : FpCtx) (searchPath : String) (pattern : String) (rec : Bool) :
    Except JsError SearchResult :=
  if isPathAllowed ctx.cwd ctx.env searchPath = false then
    .error (accessDeniedErr searchPath)
  else
    let ms :=
      searchRecursive ctx.fs ctx.formatSize (ctx.regexTest pattern) rec searchPath [] 0
    .ok ⟨searchPath, pattern, rec, ms, ms.length⟩

/-- Result object of the `stats` operation: either the full stats record
(lines 264-286) or the `exists: false` record returned on `ENOENT`
(lines 289-294). -/
inductive StatsResult where
  | found (path : String) (name : String) (extension : String) (directory : String)
      (type : String) (size : Nat) (size_formatted : String) (mode_octal : String)
      (created : String) (modified : String) (accessed : String)
      (is_directory : Bool) (is_file : Bool) (is_symlink : Bool)
  | notFound (path : String)
deriving DecidableEq, Repr

/-- The `exists` field of a stats result. -/
def StatsResult.fileExists : StatsResult → Bool
  | .found _ _ _ _ _ _ _ _ _ _ _ _ _ _ => true
  | .notFound _ => false

/-- `getStats(targetPath)` (lines 255-298): `ENOENT` is reported as data
(`exists: false`), any other `stat` failure is rethrown. -/
def getStats (ctx : FpCtx) (targetPath : String) : Except JsError StatsResult :=
  if isPathAllowed ctx.cwd ctx.env targetPath = false then
    .error (accessDeniedErr targetPath)
  else
    match ctx.fs.stat targetPath with
    | .ok stats =>
      let db := pathDirBase targetPath
      let base := db.2
      .ok (.found targetPath (baseNameNoExt base) (extname base) db.1
        (if stats.kind = FKind.dir then "directory" else "file")
        stats.size (ctx.formatSize stats.size) (octalString stats.mode)
        stats.birthtime stats.mtime stats.atime
        (stats.kind = FKind.dir) (stats.kind = FKind.file) (stats.kind = FKind.symlink))
    | .error e =>
      if e.code = some "ENOENT" then .ok (.notFound targetPath)
      else .error e

/-- The raw argument object handed to `file_processor.execute`: each
declared key present or absent.  (A key bound to a value of the wrong
JSON type is outside this model; no claim depends on it.) -/
structure FpRawArgs where
  operation : Option String := none
  path : Option String := none
  pattern : Option String := none
  recursive : Option Bool := none
  max_size : Option Nat := none
  encoding : Option String := none
deriving DecidableEq, Repr

/-- The validated arguments produced by `inputSchema.parse` (lines
15-22), with zod defaults applied. -/
structure FpArgs where
  operation : FpOperation
  path : String
  pattern : Option String
  recursive : Bool
  max_size : Nat
  encoding : FpEncoding
deriving DecidableEq, Repr

/-- `inputSchema.parse(args)` for the file processor: required enum
`operation`, required string `path`, optional `pattern`,
`recursive` defaulting to `false`, `max_size` defaulting to `1024*1024`,
`encoding` enum defaulting to `'utf8'`.  zod collects the issues of all
offending fields and throws them together. -/
def fpZodParse (raw : FpRawArgs) : Except (List ZodIssue) FpArgs :=
  let opRes : Except ZodIssue FpOperation :=
    match raw.operation with
    | none => .error ⟨"operation", "Required"⟩
    | some s =>
      if s = "read" then .ok .read
      else if s = "list" then .ok .list
      else if s = "search" then .ok .search
      else if s = "stats" then .ok .stats
      else .error ⟨"operation", "Invalid enum value"⟩
  let pathRes : Except ZodIssue String :=
    match raw.path with
    | none => .error ⟨"path", "Required"⟩
    | some s => .ok s
  let encRes : Except ZodIssue FpEncoding :=
    match raw.encoding with
    | none => .ok .utf8
    | some s =>
      if s = "utf8" then .ok .utf8
      else if s = "binary" then .ok .binary
      else if s = "base64" then .ok .base64
      else .error ⟨"encoding", "Invalid enum value"⟩
  match opRes, pathRes, encRes with
  | .ok op, .ok p, .ok enc =>
    .ok ⟨op, p, raw.pattern, raw.recursive.getD false, raw.max_size.getD (1024 * 1024), enc⟩
  | _, _, _ => .error (issueOf opRes ++ issueOf pathRes ++ issueOf encRes)

/-- The per-operation payload spread into a success envelope. -/
inductive FpPayload where
  | read (r : ReadResult)
  | list (r : ListResult)
  | search (r : SearchResult)
  | stats (r : StatsResult)
deriving DecidableEq, Repr

/-- The envelope returned by `file_processor.execute` (lines 334-351):
`{success: true, timestamp, ...result}` or
`{success: false, operation, path, error: {message, code}, timestamp}`. -/
inductive FpEnvelope where
  | success (timestamp : String) (payload : FpPayload)
  | failure (operation : String) (path : String) (error : JsError) (timestamp : String)
deriving DecidableEq, Repr

/-- The `success` field of an envelope. -/
def FpEnvelope.successB : FpEnvelope → Bool
  | .success _ _ => true
  | .failure _ _ _ _ => false

/-- The `switch (operation)` body of `execute` (lines 307-332), inside
the `try` block. -/
def fpRunOp (ctx : FpCtx) (va : FpArgs) : Except JsError FpPayload :=
  match va.operation with
  | .read => (readFile ctx va.path va.max_size va.encoding).map .read
  | .list => (listDirectory ctx va.path va.recursive).map .list
  | .search =>
    match va.pattern with
    | some pt =>
      if pt = "" then .error ⟨"pattern is required for search operation", none⟩
      else (searchFiles ctx va.path pt va.recursive).map .search
    | none => .error ⟨"pattern is required for search operation", none⟩
  | .stats => (getStats ctx va.path).map .stats

/-- `file_processor.execute(args)` (lines 303-352).  Note that
`inputSchema.parse` is called OUTSIDE the `try` block, so a `ZodError`
propagates out of `execute` (the `Except.error` case); every error inside
the `try` block is caught and turned into a `success: false` envelope. -/
def fpExecute (ctx : FpCtx) (raw : FpRawArgs) : Except Thrown FpEnvelope :=
  match fpZodParse raw with
  | .error issues => .error (.zodError issues)
  | .ok va =>
    match fpRunOp ctx va with
    | .ok payload => .ok (.success ctx.now payload)
    | .error e => .ok (.failure va.operation.nameStr va.path e ctx.now)

/-! ## The MCP dispatcher (`server/index.js`, `setupHandlers`, lines 57-87)

The `CallToolRequestSchema` handler: look the tool up in the registry
(`this.tools`, a `Map` populated once at startup), throw
`McpError(MethodNotFound)` if absent, otherwise run `tool.execute(args ||
{})` inside a `try` and either wrap the result into one
`{content: [{type: 'text', text}]}` response or catch the thrown failure
and rethrow it as `McpError(InternalError, "Tool execution failed: " +
error.message)`.  A thrown `McpError` is the protocol adapter's classified
failure response; it never terminates the process. -/

/-- The two `ErrorCode`s the dispatcher uses. -/
inductive McpErrorCode where
  | methodNotFound
  | internalError
deriving DecidableEq, Repr

/-- A thrown `McpError`: classification plus message. -/
structure McpError where
  code : McpErrorCode
  message : String
deriving DecidableEq, Repr

/-- One `{type: 'text', text}` content item. -/
structure TextContent where
  text : String
deriving DecidableEq, Repr

/-- The single response of a successful `tools/call`. -/
structure CallToolResponse where
  content : List TextContent
deriving DecidableEq, Repr

/-- The `CallToolRequestSchema` handler.  `registry` is the read-only
`name → tool` map; `render` is `typeof result === 'string' ? result :
JSON.stringify(result, null, 2)`; `emptyArgs` is the `{}` used for
`args || {}`.  The result is total: every call produces exactly one
response or one classified `McpError`. -/
def callToolHandler {Args ρ : Type} (registry : String → Option (Args → Except Thrown ρ))
    (render : ρ → String) (emptyArgs : Args) (name : String) (args : Option Args) :
    Except McpError CallToolResponse :=
  match registry name with
  | none => .error ⟨.methodNotFound, "Tool \"" ++ name ++ "\" not found"⟩
  | some exec =>
    match exec (args.getD emptyArgs) with
    | .ok result => .ok ⟨[⟨render result⟩]⟩
    | .error e => .error ⟨.internalError, "Tool execution failed: " ++ e.message⟩

/-! ## Ambient OS / process state (the `os` module, `process`, `Intl`)

Shared by the example tool and the system-info tool.  Values that the JS
renders from floats (`loadavg` entries via `toFixed`) are carried as
their already-rendered strings. -/

/-- `cpu.times` of one core. -/
structure CpuTimes where
  user : Nat
  nice : Nat
  sys : Nat
  idle : Nat
  irq : Nat
deriving DecidableEq, Repr

/-- One entry of `os.cpus()`. -/
structure CpuInfo where
  model : String
  speed : Nat
  times : CpuTimes
deriving DecidableEq, Repr

/-- One address record of `os.networkInterfaces()`. -/
structure NetAddr where
  address : String
  netmask : String
  family : String
  mac : String
  internal : Bool
  cidr : Option String
deriving DecidableEq, Repr

/-- A snapshot of everything the tools read from `os`, `process` and
`Intl`. -/
structure Sys where
  hostname : String
  platform : String
  arch : String
  osType : String
  osRelease : String
  nodeVersion : String
  uptimeSec : Nat
  load1 : String
  load5 : String
  load15 : String
  loadRaw : List String
  endianness : String
  homedir : String
  tmpdir : String
  timezone : String
  locale : String
  cpus : List CpuInfo
  totalMem : Nat
  freeMem : Nat
  pageSize : Option Nat
  pathMax : Option Nat
  pid : Nat
  ppid : Nat
  procUptimeSec : Nat
  cwdStr : String
  rss : Nat
  heapTotal : Nat
  heapUsed : Nat
  externalMem : Nat
  arrayBuffers : Nat
  cpuUser : Nat
  cpuSystem : Nat
  versions : List (String × String)
  features : List (String × Bool)
  argv : List String
  execPath : String
  execArgv : List String
  title : String
  gid : Option Nat
  uid : Option Nat
  groups : Option (List Nat)
  envVars : List (String × String)
  ifaces : List (String × List NetAddr)

/-- Lookup of an environment variable in the snapshot. -/
def Sys.envGet (sys : Sys) (k : String) : Option String :=
  (sys.envVars.find? fun kv => kv.1 = k).map fun kv => kv.2

/-! ## Example tool (`server/tools/example-tool.js`) -/

/-- The enum of the `action` argument. -/
inductive ExAction where
  | greet
  | echo
  | file_info
  | system_info
deriving DecidableEq, Repr

/-- String form of an action, echoed in every envelope. -/
def ExAction.nameStr : ExAction → String
  | .greet => "greet"
  | .echo => "echo"
  | .file_info => "file_info"
  | .system_info => "system_info"

/-- Raw arguments of `example_tool.execute`. -/
structure ExRawArgs where
  action : Option String := none
  message : Option String := none
  file_path : Option String := none
  include_details : Option Bool := none
deriving DecidableEq, Repr

/-- Validated arguments (schema at lines 18-23 of the example tool):
required `action` enum, optional `message` and `file_path`,
`include_details` defaulting to `false`. -/
structure ExArgs where
  action : ExAction
  message : Option String
  file_path : Option String
  include_details : Bool
deriving DecidableEq, Repr

/-- `inputSchema.parse` of the example tool. -/
def exZodParse (raw : ExRawArgs) : Except (List ZodIssue) ExArgs :=
  match raw.action with
  | none => .error [⟨"action", "Required"⟩]
  | some s =>
    if s = "greet" then .ok ⟨.greet, raw.message, raw.file_path, raw.include_details.getD false⟩
    else if s = "echo" then .ok ⟨.echo, raw.message, raw.file_path, raw.include_details.getD false⟩
    else if s = "file_info" then
      .ok ⟨.file_info, raw.message, raw.file_path, raw.include_details.getD false⟩
    else if s = "system_info" then
      .ok ⟨.system_info, raw.message, raw.file_path, raw.include_details.getD false⟩
    else .error [⟨"action", "Invalid enum value"⟩]

/-- Detail block of the greet result. -/
structure GreetDetails where
  message_length : Nat
  current_time : String
  random_fact : String
deriving DecidableEq, Repr

/-- Detail block of the echo result. -/
structure EchoDetails where
  character_count : Nat
  word_count : Nat
  uppercase : String
  lowercase : String
  reversed : String
deriving DecidableEq, Repr

/-- Detail block of the file-info result. -/
structure FileInfoDetails where
  full_path : String
  directory : String
  mode_octal : String
  created : String
  accessed : String
  blocks : Nat
  block_size : Nat
deriving DecidableEq, Repr

/-- Result of `handleFileInfo`: the stats record, or the `exists: false`
record returned on `ENOENT`. -/
inductive FileInfoRes where
  | found (name : String) (extension : String) (size : String) (size_bytes : Nat)
      (is_directory : Bool) (is_file : Bool) (modified : String)
      (details : Option FileInfoDetails)
  | notFound (path : String)
deriving DecidableEq, Repr

/-- Detail block of the example tool's system-info result. -/
structure ExSysDetails where
  os_release : String
  os_type : String
  hostname : String
  total_memory : String
  free_memory : String
  cpu_count : Nat
  load_average : List String
  network_interfaces : List String
  environment_variables : Nat
  process_id : Nat
  current_working_directory : String
deriving DecidableEq, Repr

/-- Result of `handleSystemInfo`. -/
structure ExSysInfoRes where
  platform : String
  architecture : String
  node_version : String
  uptime_seconds : Nat
  details : Option ExSysDetails
deriving DecidableEq, Repr

/-- The `result` value of a successful example-tool call. -/
inductive ExResult where
  | greet (greeting : String) (details : Option GreetDetails)
  | echo (echo : String) (details : Option EchoDetails)
  | fileInfo (r : FileInfoRes)
  | sysInfo (r : ExSysInfoRes)
deriving DecidableEq, Repr

/-- Ambient context of one example-tool call.  `formatFileSize` is the
tool's float formatter (abstracted); `execMs` is the measured
`Date.now() - startTime`; `nowLocale` is `new Date().toLocaleString()`. -/
structure ExCtx where
  cwd : List String
  env : Option String
  fs : FS
  sys : Sys
  formatFileSize : Nat → String
  now : String
  nowLocale : String
  execMs : Nat

/-- `handleGreet(message, includeDetails)` (lines 138-153). -/
def handleGreet (ctx : ExCtx) (message : String) (includeDetails : Bool) : ExResult :=
  let greeting := "Hello, " ++ message ++ "!"
  if includeDetails then
    .greet greeting (some ⟨message.length, ctx.nowLocale,
      "Did you know? Claude Desktop Extensions use the Model Context Protocol!"⟩)
  else
    .greet greeting none

/-- JS `message.split(/\s+/).filter(w => w.length > 0).length`. -/
def wordCount (message : String) : Nat :=
  ((message.data.foldr
    (fun ch acc =>
      match acc with
      | [] => [[ch]]
      | piece :: rest =>
        if ch.isWhitespace then [] :: piece :: rest else (ch :: piece) :: rest)
    [[]]).filter fun w => w.length > 0).length

/-- `handleEcho(message, includeDetails)` (lines 158-173). -/
def handleEcho (message : String) (includeDetails : Bool) : ExResult :=
  if includeDetails then
    .echo message (some ⟨message.length, wordCount message,
      message.toUpper, message.toLower, ⟨message.data.reverse⟩⟩)
  else
    .echo message none

/-- `handleFileInfo(filePath, includeDetails)` (lines 178-229). -/
def handleFileInfo (ctx : ExCtx) (filePath : String) (includeDetails : Bool) :
    Except JsError ExResult :=
  if isPathAllowed ctx.cwd ctx.env filePath = false then
    .error (accessDeniedErr filePath)
  else
    match ctx.fs.stat filePath with
    | .ok stats =>
      let db := pathDirBase filePath
      let base := db.2
      let details : Option FileInfoDetails :=
        if includeDetails then
          some ⟨resolvePath ctx.cwd filePath, db.1, octalString stats.mode,
            stats.birthtime, stats.atime, stats.blocks, stats.blksize⟩
        else none
      .ok (.fileInfo (.found (baseNameNoExt base) (extname base)
        (ctx.formatFileSize stats.size) stats.size
        (stats.kind = FKind.dir) (stats.kind = FKind.file) stats.mtime details))
    | .error e =>
      if e.code = some "ENOENT" then .ok (.fileInfo (.notFound filePath))
      else .error e

/-- `handleSystemInfo(includeDetails)` (lines 234-262). -/
def handleSystemInfo (ctx : ExCtx) (includeDetails : Bool) : ExResult :=
  let sys := ctx.sys
  let details : Option ExSysDetails :=
    if includeDetails then
      some ⟨sys.osRelease, sys.osType, sys.hostname,
        ctx.formatFileSize sys.totalMem, ctx.formatFileSize sys.freeMem,
        sys.cpus.length, sys.loadRaw, sys.ifaces.map Prod.fst,
        sys.envVars.length, sys.pid, sys.cwdStr⟩
    else none
  .sysInfo ⟨sys.platform, sys.arch, sys.nodeVersion, sys.procUptimeSec, details⟩

/-- The extra metadata added when `include_details` is set (lines
106-113): the validated input arguments and the node environment. -/
structure ExMetaExtra where
  input_args : ExArgs
  node_version : String
  platform : String
  arch : String
deriving DecidableEq, Repr

/-- The `metadata` block of an example-tool envelope. -/
structure ExMeta where
  execution_time_ms : Nat
  timestamp : String
  extra : Option ExMetaExtra
deriving DecidableEq, Repr

/-- The envelope returned by `example_tool.execute` (lines 99-132):
success with result and metadata, or `success: false` with
`error: {message, type}` (every failure thrown here is a plain `Error`,
so `error.constructor.name` is `"Error"`). -/
inductive ExEnvelope where
  | success (action : String) (result : ExResult) (metadata : ExMeta)
  | failure (action : String) (errMessage : String) (errType : String) (metadata : ExMeta)
deriving DecidableEq, Repr

/-- The `switch (action)` body of the example tool's `try` block
(lines 73-95). -/
def exRunAction (ctx : ExCtx) (va : ExArgs) : Except JsError ExResult :=
  match va.action with
  | .greet =>
    .ok (handleGreet ctx (if truthyStr va.message then va.message.getD "" else "World")
      va.include_details)
  | .echo => .ok (handleEcho (va.message.getD "") va.include_details)
  | .file_info =>
    match va.file_path with
    | some fp =>
      if fp = "" then .error ⟨"file_path is required for file_info action", none⟩
      else handleFileInfo ctx fp va.include_details
    | none => .error ⟨"file_path is required for file_info action", none⟩
  | .system_info => .ok (handleSystemInfo ctx va.include_details)

/-- `example_tool.execute(args)` (lines 63-133).  As in the file
processor, `inputSchema.parse` runs OUTSIDE the `try`, so a `ZodError`
escapes; failures inside the `try` become `success: false` envelopes. -/
def exExecute (ctx : ExCtx) (raw : ExRawArgs) : Except Thrown ExEnvelope :=
  match exZodParse raw with
  | .error issues => .error (.zodError issues)
  | .ok va =>
    let extra : Option ExMetaExtra :=
      if va.include_details then
        some ⟨va, ctx.sys.nodeVersion, ctx.sys.platform, ctx.sys.arch⟩
      else none
    match exRunAction ctx va with
    | .ok result => .ok (.success va.action.nameStr result ⟨ctx.execMs, ctx.now, extra⟩)
    | .error e => .ok (.failure va.action.nameStr e.message "Error" ⟨ctx.execMs, ctx.now, none⟩)

/-! ## System info tool (`server/tools/system-info-tool.js`) -/

/-- The enum of the `category` argument. -/
inductive SiCategory where
  | overview
  | hardware
  | process
  | environment
  | network
deriving DecidableEq, Repr

/-- String form of a category, echoed in every envelope. -/
def SiCategory.nameStr : SiCategory → String
  | .overview => "overview"
  | .hardware => "hardware"
  | .process => "process"
  | .environment => "environment"
  | .network => "network"

/-- Raw arguments of `system_info.execute`. -/
structure SiRawArgs where
  category : Option String := none
  detailed : Option Bool := none
deriving DecidableEq, Repr

/-- Validated arguments (schema at lines 16-19): `category` enum
defaulting to `'overview'`, `detailed` defaulting to `false` — no field
is required. -/
structure SiArgs where
  category : SiCategory
  detailed : Bool
deriving DecidableEq, Repr

/-- `inputSchema.parse` of the system-info tool. -/
def siZodParse (raw : SiRawArgs) : Except (List ZodIssue) SiArgs :=
  match raw.category with
  | none => .ok ⟨.overview, raw.detailed.getD false⟩
  | some s =>
    if s = "overview" then .ok ⟨.overview, raw.detailed.getD false⟩
    else if s = "hardware" then .ok ⟨.hardware, raw.detailed.getD false⟩
    else if s = "process" then .ok ⟨.process, raw.detailed.getD false⟩
    else if s = "environment" then .ok ⟨.environment, raw.detailed.getD false⟩
    else if s = "network" then .ok ⟨.network, raw.detailed.getD false⟩
    else .error [⟨"category", "Invalid enum value"⟩]

/-- `formatUptime(seconds)` (lines 249-262), for whole seconds. -/
def formatUptime (s : Nat) : String :=
  let days := s / 86400
  let hours := s % 86400 / 3600
  let minutes := s % 3600 / 60
  let secs := s % 60
  let parts :=
    (if days > 0 then [toString days ++ "d"] else []) ++
    (if hours > 0 then [toString hours ++ "h"] else []) ++
    (if minutes > 0 then [toString minutes ++ "m"] else []) ++
    (if secs > 0 then [toString secs ++ "s"] else [])
  match parts with
  | [] => "0s"
  | _ => joinWith " " parts

example : formatUptime 0 = "0s" := by decide
example : formatUptime 90061 = "1d 1h 1m 1s" := by decide

/-- Ambient context of one system-info call.  `formatBytes` abstracts the
tool's float formatter; `pctOf used total` abstracts
`((used / total) * 100).toFixed(1)`. -/
structure SiCtx where
  sys : Sys
  formatBytes : Nat → String
  pctOf : Nat → Nat → String
  now : String

/-- Detail block of the overview (lines 44-53). -/
structure OvDetails where
  os_endianness : String
  home_directory : String
  temp_directory : String
  shell : String
  timezone : String
  locale : String
deriving DecidableEq, Repr

/-- The overview payload (lines 24-56). -/
structure Overview where
  hostname : String
  platform : String
  architecture : String
  os_type : String
  os_release : String
  node_version : String
  uptime_seconds : Nat
  uptime_formatted : String
  load_1min : String
  load_5min : String
  load_15min : String
  detailedInfo : Option OvDetails
deriving DecidableEq, Repr

/-- `getSystemOverview(detailed)` (lines 24-56). -/
def getSystemOverview (c : SiCtx) (detailed : Bool) : Overview :=
  let sys := c.sys
  { hostname := sys.hostname, platform := sys.platform, architecture := sys.arch,
    os_type := sys.osType, os_release := sys.osRelease, node_version := sys.nodeVersion,
    uptime_seconds := sys.uptimeSec, uptime_formatted := formatUptime sys.uptimeSec,
    load_1min := sys.load1, load_5min := sys.load5, load_15min := sys.load15,
    detailedInfo :=
      if detailed then
        some ⟨sys.endianness, sys.homedir, sys.tmpdir,
          (jsOrStr (jsOrStr (sys.envGet "SHELL") (sys.envGet "COMSPEC"))
            (some "unknown")).getD "unknown",
          sys.timezone, sys.locale⟩
      else none }

/-- Per-core detail entry of the hardware payload. -/
structure CpuDetail where
  core : Nat
  model : String
  speed : Nat
  times : CpuTimes
deriving DecidableEq, Repr

/-- Detail block of the hardware payload (lines 84-97). -/
structure HwDetails where
  cpu_info : List CpuDetail
  page_size : Option Nat
  max_path_length : Option Nat
deriving DecidableEq, Repr

/-- The hardware payload (lines 61-100). -/
structure Hardware where
  cpu_model : String
  cpu_cores : Nat
  cpu_speed_mhz : Nat
  mem_total : String
  mem_free : String
  mem_used : String
  usage_percent : String
  total_bytes : Nat
  free_bytes : Nat
  used_bytes : Nat
  detailedInfo : Option HwDetails
deriving DecidableEq, Repr

/-- `getHardwareInfo(detailed)` (lines 61-100).
`cpus[0]?.model || 'Unknown'` and `cpus[0]?.speed || 0`. -/
def getHardwareInfo (c : SiCtx) (detailed : Bool) : Hardware :=
  let sys := c.sys
  let usedMem := sys.totalMem - sys.freeMem
  { cpu_model := (jsOrStr (sys.cpus.head?.map CpuInfo.model) (some "Unknown")).getD "Unknown",
    cpu_cores := sys.cpus.length,
    cpu_speed_mhz := ((sys.cpus.head?.map CpuInfo.speed).getD 0),
    mem_total := c.formatBytes sys.totalMem, mem_free := c.formatBytes sys.freeMem,
    mem_used := c.formatBytes usedMem, usage_percent := c.pctOf usedMem sys.totalMem,
    total_bytes := sys.totalMem, free_bytes := sys.freeMem, used_bytes := usedMem,
    detailedInfo :=
      if detailed then
        some ⟨((sys.cpus.zip (List.range sys.cpus.length)).map fun ci =>
            ⟨ci.2, ci.1.model, ci.1.speed, ci.1.times⟩),
          sys.pageSize, sys.pathMax⟩
      else none }

/-- Detail block of the process payload (lines 129-143). -/
structure ProcDetails where
  versions : List (String × String)
  features : List (String × Bool)
  argv : List String
  exec_path : String
  exec_argv : List String
  platform : String
  arch : String
  title : String
  gid : Option Nat
  uid : Option Nat
  groups : Option (List Nat)
deriving DecidableEq, Repr

/-- The process payload (lines 105-146).  `process.ppid || 'unknown'`:
a zero ppid is rendered as unknown. -/
structure ProcessInfo where
  pid : Nat
  ppid : Option Nat
  node_version : String
  uptime_seconds : Nat
  uptime_formatted : String
  working_directory : String
  mem_rss : String
  mem_heap_total : String
  mem_heap_used : String
  mem_external : String
  mem_array_buffers : String
  cpu_user_microseconds : Nat
  cpu_system_microseconds : Nat
  detailedInfo : Option ProcDetails
deriving DecidableEq, Repr

/-- `getProcessInfo(detailed)` (lines 105-146). -/
def getProcessInfo (c : SiCtx) (detailed : Bool) : ProcessInfo :=
  let sys := c.sys
  { pid := sys.pid, ppid := if sys.ppid = 0 then none else some sys.ppid,
    node_version := sys.nodeVersion, uptime_seconds := sys.procUptimeSec,
    uptime_formatted := formatUptime sys.procUptimeSec,
    working_directory := sys.cwdStr,
    mem_rss := c.formatBytes sys.rss, mem_heap_total := c.formatBytes sys.heapTotal,
    mem_heap_used := c.formatBytes sys.heapUsed, mem_external := c.formatBytes sys.externalMem,
    mem_array_buffers := c.formatBytes sys.arrayBuffers,
    cpu_user_microseconds := sys.cpuUser, cpu_system_microseconds := sys.cpuSystem,
    detailedInfo :=
      if detailed then
        some ⟨sys.versions, sys.features, sys.argv, sys.execPath, sys.execArgv,
          sys.platform, sys.arch, sys.title, sys.gid, sys.uid, sys.groups⟩
      else none }

/-- Detail block of the environment payload (lines 173-190). -/
structure EnvDetails where
  extension_variables : List (String × String)
  node_options : Option String
  npm_config_cache_dir : Option String
  npm_cache : Option String
deriving DecidableEq, Repr

/-- The environment payload (lines 151-193). -/
structure EnvInfo where
  variable_count : Nat
  safeVariables : List (String × String)
  detailedInfo : Option EnvDetails
deriving DecidableEq, Repr

/-- `getEnvironmentInfo(detailed)` (lines 151-193).  The `PATH` entry is
truncated to 100 characters plus `"..."` when not detailed (and, via JS
template-string semantics, becomes the literal `"undefined..."` when
`PATH` is absent); entries whose value is `undefined` are dropped. -/
def getEnvironmentInfo (c : SiCtx) (detailed : Bool) : EnvInfo :=
  let sys := c.sys
  let pathVal : Option String :=
    if detailed then sys.envGet "PATH"
    else some (((sys.envGet "PATH").map fun v => ⟨v.data.take 100⟩).getD "undefined" ++ "...")
  let safe : List (String × Option String) :=
    [("NODE_ENV", sys.envGet "NODE_ENV"), ("PATH", pathVal), ("HOME", sys.envGet "HOME"),
     ("USER", jsOrStr (sys.envGet "USER") (sys.envGet "USERNAME")),
     ("SHELL", sys.envGet "SHELL"), ("LANG", sys.envGet "LANG"), ("TZ", sys.envGet "TZ")]
  { variable_count := sys.envVars.length,
    safeVariables := safe.filterMap fun kv => (kv.2).map fun v => (kv.1, v),
    detailedInfo :=
      if detailed then
        some ⟨sys.envVars.filter fun kv =>
            strStartsWith kv.1 "EXTENSION_" || strStartsWith kv.1 "ALLOWED_" ||
            strStartsWith kv.1 "API_" || strStartsWith kv.1 "ENABLE_",
          sys.envGet "NODE_OPTIONS", sys.envGet "npm_config_cache",
          sys.envGet "npm_config_cache"⟩
      else none }

/-- Detail block of the network payload (lines 207-225). -/
structure NetDetails where
  interfaces : List (String × List NetAddr)
  hostname : String
deriving DecidableEq, Repr

/-- The network payload (lines 198-228). -/
structure NetworkInfo where
  interface_count : Nat
  interface_names : List String
  detailedInfo : Option NetDetails
deriving DecidableEq, Repr

/-- `getNetworkInfo(detailed)` (lines 198-228). -/
def getNetworkInfo (c : SiCtx) (detailed : Bool) : NetworkInfo :=
  let sys := c.sys
  { interface_count := (sys.ifaces.map Prod.fst).length,
    interface_names := sys.ifaces.map Prod.fst,
    detailedInfo := if detailed then some ⟨sys.ifaces, sys.hostname⟩ else none }

/-- The `data` value of a successful system-info call. -/
inductive SiData where
  | overview (d : Overview)
  | hardware (d : Hardware)
  | process (d : ProcessInfo)
  | environment (d : EnvInfo)
  | network (d : NetworkInfo)
deriving DecidableEq, Repr

/-- The envelope returned by `system_info.execute` (lines 299-318):
`{success: true, category, detailed, data, timestamp, collected_in_ms: 0}`
or `{success: false, category, error: {message, type}, timestamp}`. -/
inductive SiEnvelope where
  | success (category : String) (detailed : Bool) (data : SiData) (timestamp : String)
      (collected_in_ms : Nat)
  | failure (category : String) (errMessage : String) (errType : String) (timestamp : String)
deriving DecidableEq, Repr

/-- The `switch (category)` body (lines 274-297); none of the branches
can throw, so the `try` never catches. -/
def siRunCategory (c : SiCtx) (va : SiArgs) : SiData :=
  match va.category with
  | .overview => .overview (getSystemOverview c va.detailed)
  | .hardware => .hardware (getHardwareInfo c va.detailed)
  | .process => .process (getProcessInfo c va.detailed)
  | .environment => .environment (getEnvironmentInfo c va.detailed)
  | .network => .network (getNetworkInfo c va.detailed)

/-- `system_info.execute(args)` (lines 267-319).  `inputSchema.parse`
again runs OUTSIDE the `try`, so a `ZodError` escapes. -/
def siExecute (c : SiCtx) (raw : SiRawArgs) : Except Thrown SiEnvelope :=
  match siZodParse raw with
  | .error issues => .error (.zodError issues)
  | .ok va =>
    .ok (.success va.category.nameStr va.detailed (siRunCategory c va) c.now 0)

/-! ## Claims -/

/-- C1: the claim states that the Path Guard rejects the sibling path
`r + "-sibling"` for allow-list `[r]` because of a separator-boundary
check.  The code has no boundary check: resolved paths are compared with
a bare `startsWith`, so for root `/allowed` the sibling
`/allowed-sibling` — which is neither equal to the root nor an extension
of `root + "/"` — is ADMITTED.  This theorem evaluates the embedded
source at that failing input. -/
theorem claim1_sibling_path_admitted_by_guard :
    isPathAllowed [] (some "/allowed") "/allowed-sibling" = true ∧
    resolvePath [] "/allowed-sibling" ≠ resolvePath [] "/allowed" ∧
    strStartsWith (resolvePath [] "/allowed-sibling") (resolvePath [] "/allowed" ++ "/") =
      false := by
  refine ⟨by decide, by decide, by decide⟩

/-- C6: the claim states that after resolution a candidate with `..`
segments whose resolved form lies outside every root is rejected.  The
resolution part is real (`/e/../escaped` resolves to `/escaped`), and the
round-trip `isAllowed(root, [root])` holds, but the comparison is a bare
string prefix: for root `/e` the escaped path `/e/../escaped` resolves to
`/escaped`, which lies outside `/e` (not equal, not under `/e/`), yet the
guard ADMITS it because `"/escaped"` starts with `"/e"`.  This theorem
evaluates the embedded source at that failing input. -/
theorem claim6_dotdot_escape_admitted_when_prefix_matches :
    resolvePath [] "/e/../escaped" = "/escaped" ∧
    isPathAllowed [] (some "/e") "/e" = true ∧
    resolvePath [] "/e/../escaped" ≠ resolvePath [] "/e" ∧
    strStartsWith (resolvePath [] "/e/../escaped") (resolvePath [] "/e" ++ "/") = false ∧
    isPathAllowed [] (some "/e") "/e/../escaped" = true := by
  refine ⟨by decide, by decide, by decide, by decide, by decide⟩

/-- C5: dispatching a call for a name absent from the registry fails with
the `MethodNotFound` classification, and the outcome is fully determined
without consulting any handler. -/
theorem claim5_unregistered_name_method_not_found {Args ρ : Type}
    (registry : String → Option (Args → Except Thrown ρ)) (render : ρ → String)
    (emptyArgs : Args) (name : String) (args : Option Args)
    (hreg : registry name = none) :
    callToolHandler registry render emptyArgs name args =
      .error ⟨.methodNotFound, "Tool \"" ++ name ++ "\" not found"⟩ := by
  unfold callToolHandler
  rw [hreg]

/-- Witness for C5 at a concrete empty registry. -/
theorem claim5_witness :
    callToolHandler (fun _ => (none : Option (Unit → Except Thrown Nat)))
      (fun n => toString n) () "nope" none =
      .error ⟨.methodNotFound, "Tool \"nope\" not found"⟩ :=
  claim5_unregistered_name_method_not_found _ _ _ _ _ rfl

/-- C3: for a registered tool name the dispatcher produces exactly one
outcome: the single content response on success, and on any thrown
handler failure the caught, re-classified `McpError(InternalError)` whose
message is the prefixed — never the unmodified — handler message. -/
theorem claim3_dispatch_exactly_one_envelope {Args ρ : Type}
    (registry : String → Option (Args → Except Thrown ρ)) (render : ρ → String)
    (emptyArgs : Args) (name : String) (args : Option Args)
    (exec : Args → Except Thrown ρ) (hreg : registry name = some exec) :
    (∀ r, exec (args.getD emptyArgs) = .ok r →
      callToolHandler registry render emptyArgs name args = .ok ⟨[⟨render r⟩]⟩) ∧
    (∀ t, exec (args.getD emptyArgs) = .error t →
      callToolHandler registry render emptyArgs name args =
        .error ⟨.internalError, "Tool execution failed: " ++ t.message⟩ ∧
      "Tool execution failed: " ++ t.message ≠ t.message) := by
  constructor
  · intro r hr
    unfold callToolHandler
    rw [hreg]
    simp [hr]
  · intro t ht
    refine ⟨by unfold callToolHandler; rw [hreg]; simp [ht], ?_⟩
    intro hcontra
    have hlen := congrArg String.length hcontra
    rw [String.length_append] at hlen
    have h23 : ("Tool execution failed: " : String).length = 23 := rfl
    omega

/-- Witness for C3 at a concrete one-tool registry whose handler throws. -/
theorem claim3_witness :
    callToolHandler (fun n => if n = "t" then some (fun _ : Unit =>
        (.error (.jsError ⟨"boom", none⟩) : Except Thrown Nat)) else none)
      (fun n => toString n) () "t" none =
      .error ⟨.internalError, "Tool execution failed: boom"⟩ :=
  ((claim3_dispatch_exactly_one_envelope _ _ _ _ _ _ rfl).2
    (.jsError ⟨"boom", none⟩) rfl).1

/-- C10: calling `system_info` with the empty argument object succeeds:
no field is required, `category` defaults to `'overview'`, `detailed`
defaults to `false`, and the success envelope echoes the defaulted
category and detailed values. -/
theorem claim10_system_info_empty_args_defaults (c : SiCtx) :
    siZodParse ⟨none, none⟩ = .ok ⟨.overview, false⟩ ∧
    siExecute c ⟨none, none⟩ =
      .ok (.success "overview" false (.overview (getSystemOverview c false)) c.now 0) :=
  ⟨rfl, rfl⟩

deriving instance DecidableEq for Except

/-- A throwing filesystem: every `stat` fails with `ENOENT`, every
directory is empty. -/
def c2fs : FS :=
  ⟨fun _ => .error ⟨"ENOENT: no such file or directory", some "ENOENT"⟩,
   fun _ => .ok [], fun _ => "", fun _ => []⟩

/-- Concrete call context for C2. -/
def c2ctx : FpCtx :=
  ⟨[], some "/allowed", c2fs, fun _ => "", fun _ _ => false, "2026-01-01T00:00:00.000Z"⟩

/-- C2: the claim states that omitting a required field (here
`operation` of `file_processor`) yields a `success = false` envelope
classified `ValidationError`.  The handler body is indeed never invoked,
and the zod message names the field — but `inputSchema.parse` runs
OUTSIDE the `try` block, so `execute` THROWS the `ZodError` instead of
returning an envelope, and the dispatcher re-classifies it as
`McpError(InternalError)`, not `ValidationError`.  (The repository's own
tests `test/test_tools.js` assert `result.success === false` for
schema-invalid arguments, which this control flow cannot produce.)  This
theorem evaluates the embedded source at the failing input
`{path: "/x"}`. -/
theorem claim2_missing_required_field_throws_unclassified :
    fpExecute c2ctx ⟨none, some "/x", none, none, none, none⟩ =
      .error (.zodError [⟨"operation", "Required"⟩]) ∧
    zodMessage [⟨"operation", "Required"⟩] = "operation: Required" ∧
    callToolHandler
      (fun n => if n = "file_processor" then some (fpExecute c2ctx) else none)
      (fun _ => "") ({} : FpRawArgs) "file_processor"
      (some ⟨none, some "/x", none, none, none, none⟩) =
      .error ⟨.internalError, "Tool execution failed: operation: Required"⟩ := by
  refine ⟨by decide, by decide, by decide⟩

/-- C4: for an allowed path whose `stat` fails with `ENOENT`, the `stats`
operation reports absence as data — a `success: true` envelope whose
payload has `exists: false` — while the `read` operation on the same
path returns a `success: false` envelope carrying the error object. -/
theorem claim4_stats_absence_is_data_read_absence_is_error
    (ctx : FpCtx) (p : String) (e : JsError)
    (hallow : isPathAllowed ctx.cwd ctx.env p = true)
    (hstat : ctx.fs.stat p = .error e)
    (hcode : e.code = some "ENOENT") :
    fpExecute ctx ⟨some "stats", some p, none, none, none, none⟩ =
      .ok (.success ctx.now (.stats (.notFound p))) ∧
    FpEnvelope.successB (.success ctx.now (.stats (.notFound p))) = true ∧
    StatsResult.fileExists (.notFound p) = false ∧
    fpExecute ctx ⟨some "read", some p, none, none, none, none⟩ =
      .ok (.failure "read" p e ctx.now) ∧
    FpEnvelope.successB (.failure "read" p e ctx.now) = false := by
  have hzs : fpZodParse ⟨some "stats", some p, none, none, none, none⟩ =
      .ok ⟨.stats, p, none, false, 1024 * 1024, .utf8⟩ := rfl
  have hzr : fpZodParse ⟨some "read", some p, none, none, none, none⟩ =
      .ok ⟨.read, p, none, false, 1024 * 1024, .utf8⟩ := rfl
  refine ⟨?_, rfl, rfl, ?_, rfl⟩
  · simp [fpExecute, hzs, fpRunOp, getStats, hallow, hstat, hcode, Except.map]
  · simp [fpExecute, hzr, fpRunOp, readFile, hallow, hstat, Except.map, FpOperation.nameStr]

/-- Filesystem for the C4 witness: nothing exists. -/
def c4fs : FS :=
  ⟨fun _ => .error ⟨"ENOENT: no such file or directory, stat '/d/x'", some "ENOENT"⟩,
   fun _ => .ok [], fun _ => "", fun _ => []⟩

/-- Concrete call context for the C4 witness. -/
def c4ctx : FpCtx :=
  ⟨[], some "/d", c4fs, fun _ => "0.00 B", fun _ _ => false, "2026-01-01T00:00:00.000Z"⟩

/-- Witness for C4 at a concrete missing file under the allowed root. -/
theorem claim4_witness :
    fpExecute c4ctx ⟨some "stats", some "/d/x", none, none, none, none⟩ =
      .ok (.success c4ctx.now (.stats (.notFound "/d/x"))) ∧
    FpEnvelope.successB (.success c4ctx.now (.stats (.notFound "/d/x"))) = true ∧
    StatsResult.fileExists (.notFound "/d/x") = false ∧
    fpExecute c4ctx ⟨some "read", some "/d/x", none, none, none, none⟩ =
      .ok (.failure "read" "/d/x"
        ⟨"ENOENT: no such file or directory, stat '/d/x'", some "ENOENT"⟩ c4ctx.now) ∧
    FpEnvelope.successB (.failure "read" "/d/x"
        ⟨"ENOENT: no such file or directory, stat '/d/x'", some "ENOENT"⟩ c4ctx.now) = false :=
  claim4_stats_absence_is_data_read_absence_is_error c4ctx "/d/x"
    ⟨"ENOENT: no such file or directory, stat '/d/x'", some "ENOENT"⟩
    (by decide) rfl rfl

/-- `sub` occurs inside `s`: `s` splits as `a ++ sub ++ b`. -/
def strContains (s sub : String) : Prop := ∃ a b : String, s = a ++ sub ++ b

/-- C7: a `read` of an allowed, existing regular file whose size exceeds
the `max_size` argument (defaulting to `1024 * 1024 = 1048576` when
omitted) returns a `success: false` envelope whose error message contains
`"exceeds maximum"`; no content is returned (the failure envelope has no
content field). -/
theorem claim7_read_size_limit_exceeded
    (ctx : FpCtx) (p : String) (st : Stats) (msz : Option Nat)
    (hallow : isPathAllowed ctx.cwd ctx.env p = true)
    (hstat : ctx.fs.stat p = .ok st)
    (hfile : st.kind = FKind.file)
    (hsize : st.size > msz.getD (1024 * 1024)) :
    fpExecute ctx ⟨some "read", some p, none, none, msz, none⟩ =
      .ok (.failure "read" p
        ⟨"File size (" ++ ctx.formatSize st.size ++ ") exceeds maximum allowed size (" ++
          ctx.formatSize (msz.getD (1024 * 1024)) ++ ")", none⟩ ctx.now) ∧
    strContains
      ("File size (" ++ ctx.formatSize st.size ++ ") exceeds maximum allowed size (" ++
        ctx.formatSize (msz.getD (1024 * 1024)) ++ ")") "exceeds maximum" ∧
    FpEnvelope.successB (.failure "read" p
      ⟨"File size (" ++ ctx.formatSize st.size ++ ") exceeds maximum allowed size (" ++
        ctx.formatSize (msz.getD (1024 * 1024)) ++ ")", none⟩ ctx.now) = false := by
  have hz : fpZodParse ⟨some "read", some p, none, none, msz, none⟩ =
      .ok ⟨.read, p, none, false, msz.getD (1024 * 1024), .utf8⟩ := by
    cases msz <;> rfl
  refine ⟨?_, ?_, rfl⟩
  · simp [fpExecute, hz, fpRunOp, readFile, hallow, hstat, hfile, hsize, Except.map,
      FpOperation.nameStr]
  · refine ⟨"File size (" ++ ctx.formatSize st.size ++ ") ",
      " allowed size (" ++ ctx.formatSize (msz.getD (1024 * 1024)) ++ ")", ?_⟩
    apply String.ext
    simp [String.data_append]

/-- Filesystem for the C7 witness: a single 2,000,000-byte regular file
everywhere. -/
def c7fs : FS :=
  ⟨fun _ => .ok ⟨.file, 2000000, 420, "2026-01-01T00:00:00.000Z",
     "2026-01-01T00:00:00.000Z", "2026-01-01T00:00:00.000Z", 8, 4096⟩,
   fun _ => .ok [], fun _ => "", fun _ => []⟩

/-- Concrete call context for the C7 witness. -/
def c7ctx : FpCtx :=
  ⟨[], some "/d", c7fs, fun n => toString n ++ " B", fun _ _ => false,
   "2026-01-01T00:00:00.000Z"⟩

/-- Witness for C7: reading a 2,000,000-byte file under the default
1,048,576-byte limit fails with the size-limit message. -/
theorem claim7_witness :
    fpExecute c7ctx ⟨some "read", some "/d/big.bin", none, none, none, none⟩ =
      .ok (.failure "read" "/d/big.bin"
        ⟨"File size (" ++ c7ctx.formatSize 2000000 ++ ") exceeds maximum allowed size (" ++
          c7ctx.formatSize ((none : Option Nat).getD (1024 * 1024)) ++ ")", none⟩ c7ctx.now) ∧
    strContains
      ("File size (" ++ c7ctx.formatSize 2000000 ++ ") exceeds maximum allowed size (" ++
        c7ctx.formatSize ((none : Option Nat).getD (1024 * 1024)) ++ ")") "exceeds maximum" ∧
    FpEnvelope.successB (.failure "read" "/d/big.bin"
      ⟨"File size (" ++ c7ctx.formatSize 2000000 ++ ") exceeds maximum allowed size (" ++
        c7ctx.formatSize ((none : Option Nat).getD (1024 * 1024)) ++ ")", none⟩ c7ctx.now) =
      false :=
  claim7_read_size_limit_exceeded c7ctx "/d/big.bin"
    ⟨.file, 2000000, 420, "2026-01-01T00:00:00.000Z", "2026-01-01T00:00:00.000Z",
     "2026-01-01T00:00:00.000Z", 8, 4096⟩ none (by decide) rfl rfl (by decide)

/-- With no `ALLOWED_PATHS` the allow-list is empty and the guard denies
every path: `[].some(...)` is `false`. -/
theorem isPathAllowed_env_absent (cwd : List String) (p : String) :
    isPathAllowed cwd none p = false := rfl

/-- C8: when `ALLOWED_PATHS` is absent, `isPathAllowed` returns `false`
for every candidate, so every (well-formed) `file_processor` operation
and every `example_tool` `file_info` request is denied with the
access-denied failure, regardless of the path. -/
theorem claim8_absent_allowlist_denies_everything :
    (∀ (cwd : List String) (p : String), isPathAllowed cwd none p = false) ∧
    (∀ (ctx : FpCtx) (raw : FpRawArgs) (va : FpArgs),
      ctx.env = none → fpZodParse raw = .ok va →
      (va.operation = .search → truthyStr va.pattern = true) →
      fpExecute ctx raw =
        .ok (.failure va.operation.nameStr va.path (accessDeniedErr va.path) ctx.now)) ∧
    (∀ (ctx : ExCtx) (msg : Option String) (fp : String) (incl : Option Bool),
      ctx.env = none → fp ≠ "" →
      exExecute ctx ⟨some "file_info", msg, some fp, incl⟩ =
        .ok (.failure "file_info"
          ("Access denied: " ++ fp ++ " is not in an allowed directory") "Error"
          ⟨ctx.execMs, ctx.now, none⟩)) := by
  refine ⟨fun _ _ => rfl, ?_, ?_⟩
  · intro ctx raw va henv hparse hpat
    have hdeny : isPathAllowed ctx.cwd ctx.env va.path = false := by
      rw [henv]; exact isPathAllowed_env_absent _ _
    cases hop : va.operation with
    | read =>
      simp [fpExecute, hparse, fpRunOp, hop, readFile, hdeny, Except.map]
    | list =>
      simp [fpExecute, hparse, fpRunOp, hop, listDirectory, hdeny, Except.map]
    | search =>
      rw [hop] at hpat
      have hps := hpat rfl
      cases hpt : va.pattern with
      | none => rw [hpt] at hps; simp [truthyStr] at hps
      | some pt =>
        rw [hpt] at hps
        have hne : pt ≠ "" := by simpa [truthyStr] using hps
        simp [fpExecute, hparse, fpRunOp, hop, hpt, hne, searchFiles, hdeny, Except.map]
    | stats =>
      simp [fpExecute, hparse, fpRunOp, hop, getStats, hdeny, Except.map]
  · intro ctx msg fp incl henv hfp
    have hz : exZodParse ⟨some "file_info", msg, some fp, incl⟩ =
        .ok ⟨.file_info, msg, some fp, incl.getD false⟩ := rfl
    have hdeny : isPathAllowed ctx.cwd ctx.env fp = false := by
      rw [henv]; exact isPathAllowed_env_absent _ _
    simp [exExecute, hz, exRunAction, handleFileInfo, hfp, hdeny, accessDeniedErr,
      ExAction.nameStr]

/-- Filesystem for the C8 witness (contents never reached). -/
def c8fs : FS :=
  ⟨fun _ => .ok ⟨.file, 1, 420, "2026-01-01T00:00:00.000Z", "2026-01-01T00:00:00.000Z",
     "2026-01-01T00:00:00.000Z", 8, 4096⟩,
   fun _ => .ok [], fun _ => "", fun _ => []⟩

/-- File-processor context for the C8 witness: `ALLOWED_PATHS` absent. -/
def c8ctx : FpCtx :=
  ⟨[], none, c8fs, fun _ => "", fun _ _ => false, "2026-01-01T00:00:00.000Z"⟩

/-- A minimal `os`/`process` snapshot for witnesses. -/
def c8sys : Sys :=
  { hostname := "h", platform := "linux", arch := "x64", osType := "Linux",
    osRelease := "6.1.0", nodeVersion := "v20.0.0", uptimeSec := 60,
    load1 := "0.00", load5 := "0.00", load15 := "0.00", loadRaw := [],
    endianness := "LE", homedir := "/root", tmpdir := "/tmp", timezone := "UTC",
    locale := "en-US", cpus := [], totalMem := 1024, freeMem := 512,
    pageSize := none, pathMax := none, pid := 1, ppid := 0, procUptimeSec := 1,
    cwdStr := "/", rss := 0, heapTotal := 0, heapUsed := 0, externalMem := 0,
    arrayBuffers := 0, cpuUser := 0, cpuSystem := 0, versions := [], features := [],
    argv := [], execPath := "/usr/bin/node", execArgv := [], title := "node",
    gid := none, uid := none, groups := none, envVars := [], ifaces := [] }

/-- Example-tool context for the C8 witness: `ALLOWED_PATHS` absent. -/
def c8exctx : ExCtx :=
  ⟨[], none, c8fs, c8sys, fun _ => "", "2026-01-01T00:00:00.000Z",
   "1/1/2026, 12:00:00 AM", 1⟩

/-- Witness for C8 at the concrete path `/etc/passwd`. -/
theorem claim8_witness :
    isPathAllowed [] none "/etc/passwd" = false ∧
    fpExecute c8ctx ⟨some "read", some "/etc/passwd", none, none, none, none⟩ =
      .ok (.failure "read" "/etc/passwd" (accessDeniedErr "/etc/passwd") c8ctx.now) ∧
    exExecute c8exctx ⟨some "file_info", none, some "/etc/passwd", none⟩ =
      .ok (.failure "file_info"
        ("Access denied: " ++ "/etc/passwd" ++ " is not in an allowed directory") "Error"
        ⟨c8exctx.execMs, c8exctx.now, none⟩) :=
  ⟨claim8_absent_allowlist_denies_everything.1 [] "/etc/passwd",
   claim8_absent_allowlist_denies_everything.2.1 c8ctx
     ⟨some "read", some "/etc/passwd", none, none, none, none⟩
     ⟨.read, "/etc/passwd", none, false, 1024 * 1024, .utf8⟩ rfl rfl (by decide),
   claim8_absent_allowlist_denies_everything.2.2 c8exctx none "/etc/passwd" none rfl
     (by decide)⟩

/-- The error thrown by `listRecursive` past the depth bound. -/
def depthExceededErr : JsError := ⟨"Maximum directory depth exceeded", none⟩

mutual

/-- `hasDirChainB fs n p`: below `p` there is a chain of `n` nested
directory entries (as reported by `readdir`). -/
def hasDirChainB (fs : FS) (n : Nat) (p : String) : Bool :=
  match n with
  | 0 => true
  | n + 1 =>
    match fs.readdir p with
    | .error _ => false
    | .ok es => chainAny fs n p es
termination_by (n, 0)

/-- Some entry of `es` is a directory continuing an `n`-chain. -/
def chainAny (fs : FS) (n : Nat) (p : String) (es : List Dirent) : Bool :=
  match es with
  | [] => false
  | d :: ds =>
    (decide (d.kind = FKind.dir) && hasDirChainB fs n (pathJoin p d.name)) || chainAny fs n p ds
termination_by (n, es.length + 1)

end

/-- Past the bound, `listRecursive` throws at once. -/
theorem listRecursive_past_bound (fs : FS) (fmt : Nat → String) (rec : Bool) (p : String)
    (rel : List String) (depth : Nat) (h : depth > 10) :
    listRecursive fs fmt rec p rel depth = .error depthExceededErr := by
  rw [listRecursive]
  simp [h, depthExceededErr]


/-- Past the bound, every error of the entry loop (recursive mode) is
the depth-bound error. -/
theorem listEntries_deep_error (fs : FS) (fmt : Nat → String) (depth : Nat) (hd : depth > 10) :
    ∀ (p : String) (rel : List String) (es : List Dirent) (e : JsError),
      listEntries fs fmt true p rel depth es = .error e → e = depthExceededErr := by
  intro p rel es
  induction es with
  | nil => intro e h; rw [listEntries] at h; simp at h
  | cons d ds ihes =>
    intro e h
    rw [listEntries] at h
    cases hk : d.kind with
    | dir =>
      have hpast := listRecursive_past_bound fs fmt true (pathJoin p d.name) (rel ++ [d.name])
        (depth + 1) (by omega)
      cases hrest : listEntries fs fmt true p rel depth ds with
      | error e2 =>
        have he2 := ihes e2 hrest
        simp [hk, hpast, hrest] at h
        subst h
        rfl
      | ok r =>
        simp [hk, hpast, hrest] at h
        subst h
        rfl
    | file =>
      cases hrest : listEntries fs fmt true p rel depth ds with
      | error e2 =>
        have he2 := ihes e2 hrest
        simp [hk, hrest] at h
        subst h
        exact he2
      | ok r => simp [hk, hrest] at h
    | symlink =>
      simp [hk] at h
      exact ihes e h
    | other =>
      simp [hk] at h
      exact ihes e h

/-- When every `readdir` succeeds, the only error the recursive listing
can produce is the depth-bound error. -/
theorem listError_is_depth_error (fs : FS) (fmt : Nat → String)
    (hrd : ∀ q, ∃ es, fs.readdir q = .ok es) :
    ∀ (fu depth : Nat), 11 - depth ≤ fu →
      (∀ (p : String) (rel : List String) (es : List Dirent) (e : JsError),
        listEntries fs fmt true p rel depth es = .error e → e = depthExceededErr) ∧
      (∀ (p : String) (rel : List String) (e : JsError),
        listRecursive fs fmt true p rel depth = .error e → e = depthExceededErr) := by
  intro fu
  induction fu with
  | zero =>
    intro depth hfu
    have hd : depth > 10 := by omega
    refine ⟨listEntries_deep_error fs fmt depth hd, ?_⟩
    intro p rel e h
    rw [listRecursive_past_bound fs fmt true p rel depth hd] at h
    injection h with h2
    exact h2.symm
  | succ fu ih =>
    intro depth hfu
    by_cases hd : depth > 10
    · refine ⟨listEntries_deep_error fs fmt depth hd, ?_⟩
      intro p rel e h
      rw [listRecursive_past_bound fs fmt true p rel depth hd] at h
      injection h with h2
      exact h2.symm
    · have hdle : depth ≤ 10 := by omega
      have hE : ∀ (p : String) (rel : List String) (es : List Dirent) (e : JsError),
          listEntries fs fmt true p rel depth es = .error e → e = depthExceededErr := by
        intro p rel es
        induction es with
        | nil => intro e h; rw [listEntries] at h; simp at h
        | cons d ds ihes =>
          intro e h
          rw [listEntries] at h
          cases hk : d.kind with
          | dir =>
            cases hsub : listRecursive fs fmt true (pathJoin p d.name) (rel ++ [d.name])
                (depth + 1) with
            | error e2 =>
              have he2 := (ih (depth + 1) (by omega)).2 _ _ e2 hsub
              simp [hk, hsub] at h
              subst h
              exact he2
            | ok sub =>
              cases hrest : listEntries fs fmt true p rel depth ds with
              | error e2 =>
                have he2 := ihes e2 hrest
                simp [hk, hsub, hrest] at h
                subst h
                exact he2
              | ok r => simp [hk, hsub, hrest] at h
          | file =>
            cases hrest : listEntries fs fmt true p rel depth ds with
            | error e2 =>
              have he2 := ihes e2 hrest
              simp [hk, hrest] at h
              subst h
              exact he2
            | ok r => simp [hk, hrest] at h
          | symlink =>
            simp [hk] at h
            exact ihes e h
          | other =>
            simp [hk] at h
            exact ihes e h
      refine ⟨hE, ?_⟩
      intro p rel e h
      rw [listRecursive] at h
      simp only [hd, dite_false] at h
      obtain ⟨es, hes⟩ := hrd p
      rw [hes] at h
      exact hE p rel es e h

/-- A chain of `11 - depth` nested directories below `p` forces the
recursive listing started at `depth` into the depth-bound error. -/
theorem list_chain_gives_depth_error (fs : FS) (fmt : Nat → String)
    (hrd : ∀ q, ∃ es, fs.readdir q = .ok es) :
    ∀ (n : Nat) (p : String) (rel : List String) (depth : Nat), depth + n = 11 →
      hasDirChainB fs n p = true →
      listRecursive fs fmt true p rel depth = .error depthExceededErr := by
  intro n
  induction n with
  | zero =>
    intro p rel depth hdn hch
    exact listRecursive_past_bound fs fmt true p rel depth (by omega)
  | succ n ihn =>
    intro p rel depth hdn hch
    obtain ⟨es, hes⟩ := hrd p
    rw [hasDirChainB, hes] at hch
    change chainAny fs n p es = true at hch
    rw [listRecursive, dif_neg (by omega : ¬ depth > 10), hes]
    show listEntries fs fmt true p rel depth es = Except.error depthExceededErr
    clear hes
    revert hch
    induction es with
    | nil => intro hch; rw [chainAny] at hch; simp at hch
    | cons d ds ihes =>
      intro hch
      rw [chainAny] at hch
      simp only [Bool.or_eq_true, Bool.and_eq_true, decide_eq_true_eq] at hch
      rcases hch with ⟨hk, hsub⟩ | h2
      · have herr := ihn (pathJoin p d.name) (rel ++ [d.name]) (depth + 1) (by omega) hsub
        rw [listEntries]
        simp [hk, herr]
      · have hrest := ihes h2
        rw [listEntries]
        cases hk : d.kind with
        | dir =>
          cases hsub2 : listRecursive fs fmt true (pathJoin p d.name) (rel ++ [d.name])
              (depth + 1) with
          | error e2 =>
            have he2 := (listError_is_depth_error fs fmt hrd 11 (depth + 1)
              (by omega)).2 _ _ e2 hsub2
            simp [hk, hsub2, he2]
          | ok sub => simp [hk, hsub2, hrest]
        | file => simp [hk, hrest]
        | symlink => simpa [hk] using hrest
        | other => simpa [hk] using hrest

/-- Every match the search collects lies at depth at most 10: the
traversal never descends past the bound. -/
theorem search_matches_depth_le (fs : FS) (fmt : Nat → String) (matcher : String → Bool)
    (rec : Bool) :
    ∀ (fu depth : Nat), 11 - depth ≤ fu → depth ≤ 10 →
      (∀ (p : String) (rel : List String) (es : List Dirent) (m : SearchMatch),
        m ∈ searchEntries fs fmt matcher rec p rel depth es → m.depth ≤ 10) ∧
      (∀ (p : String) (rel : List String) (m : SearchMatch),
        m ∈ searchRecursive fs fmt matcher rec p rel depth → m.depth ≤ 10) := by
  intro fu
  induction fu with
  | zero => intro depth h1 h2; exact absurd h1 (by omega)
  | succ fu ih =>
    intro depth h1 h2
    have hE : ∀ (p : String) (rel : List String) (es : List Dirent) (m : SearchMatch),
        m ∈ searchEntries fs fmt matcher rec p rel depth es → m.depth ≤ 10 := by
      intro p rel es
      induction es with
      | nil => intro m hm; rw [searchEntries] at hm; simp at hm
      | cons d ds ihes =>
        intro m hm
        rw [searchEntries] at hm
        by_cases hcd : d.kind = FKind.dir ∧ rec = true ∧ depth < 10
        · by_cases hmt : matcher d.name = true
          · cases hst : fs.stat (pathJoin p d.name) with
            | ok st =>
              simp only [hst, if_pos hmt, if_pos hcd, List.singleton_append,
                List.mem_cons, List.mem_append] at hm
              rcases hm with (hm | hm) | hm
              · subst hm; exact h2
              · exact (ih (depth + 1) (by omega) (by omega)).2 _ _ m hm
              · exact ihes m hm
            | error e =>
              simp only [hst, if_pos hmt, if_pos hcd, List.singleton_append,
                List.mem_cons, List.mem_append] at hm
              rcases hm with (hm | hm) | hm
              · subst hm; exact h2
              · exact (ih (depth + 1) (by omega) (by omega)).2 _ _ m hm
              · exact ihes m hm
          · simp only [if_neg hmt, if_pos hcd, List.nil_append, List.mem_append] at hm
            rcases hm with hm | hm
            · exact (ih (depth + 1) (by omega) (by omega)).2 _ _ m hm
            · exact ihes m hm
        · by_cases hmt : matcher d.name = true
          · cases hst : fs.stat (pathJoin p d.name) with
            | ok st =>
              simp only [hst, if_pos hmt, if_neg hcd, List.singleton_append,
                List.nil_append, List.mem_cons] at hm
              rcases hm with hm | hm
              · subst hm; exact h2
              · exact ihes m hm
            | error e =>
              simp only [hst, if_pos hmt, if_neg hcd, List.singleton_append,
                List.nil_append, List.mem_cons] at hm
              rcases hm with hm | hm
              · subst hm; exact h2
              · exact ihes m hm
          · simp only [if_neg hmt, if_neg hcd, List.nil_append] at hm
            exact ihes m hm
    refine ⟨hE, ?_⟩
    intro p rel m hm
    rw [searchRecursive, dif_neg (by omega : ¬ depth > 10)] at hm
    cases hrd2 : fs.readdir p with
    | error e => rw [hrd2] at hm; simp at hm
    | ok es =>
      rw [hrd2] at hm
      exact hE p rel es m hm

/-- C9: directory traversal is bounded at nesting depth 10 (so it
terminates on any directory graph — `listRecursive` and
`searchRecursive` are total functions of an arbitrary, even cyclic,
`readdir` relation).  A `list` with `recursive: true` over a chain of 11
nested directories fails with the `'Maximum directory depth exceeded'`
error envelope, while `search` never fails for this reason: it silently
stops descending and returns only matches of depth at most 10. -/
theorem claim9_traversal_depth_bounded
    (ctx : FpCtx) (p pt : String) (rcv : Bool) (st : Stats)
    (hallow : isPathAllowed ctx.cwd ctx.env p = true)
    (hpt : pt ≠ "")
    (hstat : ctx.fs.stat p = .ok st)
    (hdir : st.kind = FKind.dir)
    (hrd : ∀ q, ∃ es, ctx.fs.readdir q = .ok es)
    (hchain : hasDirChainB ctx.fs 11 p = true) :
    (∃ ms, fpExecute ctx ⟨some "search", some p, some pt, some rcv, none, none⟩ =
        .ok (.success ctx.now (.search ⟨p, pt, rcv, ms, ms.length⟩)) ∧
      ∀ m ∈ ms, m.depth ≤ 10) ∧
    fpExecute ctx ⟨some "list", some p, none, some true, none, none⟩ =
      .ok (.failure "list" p depthExceededErr ctx.now) := by
  constructor
  · refine ⟨searchRecursive ctx.fs ctx.formatSize (ctx.regexTest pt) rcv p [] 0, ?_, ?_⟩
    · have hz : fpZodParse ⟨some "search", some p, some pt, some rcv, none, none⟩ =
          .ok ⟨.search, p, some pt, rcv, 1024 * 1024, .utf8⟩ := by cases rcv <;> rfl
      simp [fpExecute, hz, fpRunOp, hpt, searchFiles, hallow, Except.map]
    · intro m hm
      exact (search_matches_depth_le ctx.fs ctx.formatSize (ctx.regexTest pt) rcv 11 0
        (by omega) (by omega)).2 p [] m hm
  · have hz : fpZodParse ⟨some "list", some p, none, some true, none, none⟩ =
        .ok ⟨.list, p, none, true, 1024 * 1024, .utf8⟩ := rfl
    have herr := list_chain_gives_depth_error ctx.fs ctx.formatSize hrd 11 p [] 0
      (by omega) hchain
    simp [fpExecute, hz, fpRunOp, listDirectory, hallow, hstat, hdir, herr, Except.map,
      FpOperation.nameStr]

/-- Witness filesystem for C9: an unboundedly deep directory graph —
every directory contains one subdirectory `c`.  The traversal functions
are total on it all the same. -/
def c9fs : FS :=
  ⟨fun _ => .ok ⟨.dir, 0, 493, "2026-01-01T00:00:00.000Z", "2026-01-01T00:00:00.000Z",
     "2026-01-01T00:00:00.000Z", 0, 4096⟩,
   fun _ => .ok [⟨"c", .dir⟩], fun _ => "", fun _ => []⟩

/-- Concrete call context for the C9 witness. -/
def c9ctx : FpCtx :=
  ⟨[], some "/d", c9fs, fun _ => "0.00 B", fun _ _ => true, "2026-01-01T00:00:00.000Z"⟩

/-- In the C9 witness filesystem every path carries arbitrarily long
directory chains. -/
theorem c9fs_chains : ∀ (n : Nat) (q : String), hasDirChainB c9fs n q = true := by
  intro n
  induction n with
  | zero => intro q; rw [hasDirChainB]
  | succ n ihn =>
    intro q
    rw [hasDirChainB]
    show chainAny c9fs n q [⟨"c", FKind.dir⟩] = true
    rw [chainAny]
    simp [ihn]

/-- Witness for C9 on the concrete unbounded directory graph. -/
theorem claim9_witness :
    (∃ ms, fpExecute c9ctx ⟨some "search", some "/d", some "c", some true, none, none⟩ =
        .ok (.success c9ctx.now (.search ⟨"/d", "c", true, ms, ms.length⟩)) ∧
      ∀ m ∈ ms, m.depth ≤ 10) ∧
    fpExecute c9ctx ⟨some "list", some "/d", none, some true, none, none⟩ =
      .ok (.failure "list" "/d" depthExceededErr c9ctx.now) :=
  claim9_traversal_depth_bounded c9ctx "/d" "c" true
    ⟨.dir, 0, 493, "2026-01-01T00:00:00.000Z", "2026-01-01T00:00:00.000Z",
     "2026-01-01T00:00:00.000Z", 0, 4096⟩
    (by decide) (by decide) rfl rfl (fun q => ⟨[⟨"c", FKind.dir⟩], rfl⟩)
    (c9fs_chains 11 "/d")
